import Mathlib

/-!
Shallow embedding of the flutter-chat-server core (Go) in Lean 4.

The embedded code comes from `websocket.go` (Hub.run, Client.readPump,
MessageStore and the Message constructors), `api.go` (sendMessage) and the
configuration constants.  Impure inputs of the Go code — the server clock
(`time.Now()`) and the generated message id — are passed in explicitly as
parameters; everything else is translated statement by statement.
-/

namespace ChatServer

/-- Message mirrors the Go struct `Message` (websocket.go): id, user, content,
timestamp (server instant, modelled as UnixNano integer), type (the Go field
`Type`, lower-cased because `Type` is reserved in Lean) and channel. -/
structure Message where
  ID : String
  User : String
  Content : String
  Timestamp : ℤ
  type : String
  Channel : String
deriving DecidableEq, Repr

/-- Constant `MessageTypeText = "text"` from the configuration constants. -/
def MessageTypeText : String := "text"

/-- Constant `MessageTypeSystem = "system"` from the configuration constants. -/
def MessageTypeSystem : String := "system"

/-- Constant `DefaultAPIUser = "Web User"` from the configuration constants. -/
def DefaultAPIUser : String := "Web User"

/-- Constant `StatusSent = "sent"` from the configuration constants. -/
def StatusSent : String := "sent"

/-- Constant `ErrorChannelRequired = "channel is required"`. -/
def ErrorChannelRequired : String := "channel is required"

/-- Constant `DefaultClientSendBuffer = 256`: capacity of a client's send
queue. -/
def DefaultClientSendBuffer : ℕ := 256

/-- Rendering of `fmt.Sprintf(SystemMessageJoinTemplate, username, channel)`
with `SystemMessageJoinTemplate = "%s 加入了 %s 頻道"`. -/
def joinContent (username channel : String) : String :=
  username ++ " 加入了 " ++ channel ++ " 頻道"

/-- Rendering of `fmt.Sprintf(SystemMessageLeaveTemplate, username, channel)`
with `SystemMessageLeaveTemplate = "%s 離開了 %s 頻道"`. -/
def leaveContent (username channel : String) : String :=
  username ++ " 離開了 " ++ channel ++ " 頻道"

/-- Rendering of `fmt.Sprintf(WelcomeMessageTemplate, channel)` with
`WelcomeMessageTemplate = "歡迎來到 %s 頻道！開始你的第一條消息吧 👋"`. -/
def welcomeContent (channel : String) : String :=
  "歡迎來到 " ++ channel ++ " 頻道！開始你的第一條消息吧 👋"

/-- `NewSystemMessage(content, channel)` from websocket.go.  The generated id
and the clock reading `time.Now()` are the explicit parameters `gid`, `now`. -/
def NewSystemMessage (gid : String) (now : ℤ) (content channel : String) : Message :=
  { ID := gid, User := "System", Content := content, Timestamp := now,
    type := MessageTypeSystem, Channel := channel }

/-- `NewJoinMessage(username, channel)` from websocket.go. -/
def NewJoinMessage (gid : String) (now : ℤ) (username channel : String) : Message :=
  NewSystemMessage gid now (joinContent username channel) channel

/-- `NewLeaveMessage(username, channel)` from websocket.go. -/
def NewLeaveMessage (gid : String) (now : ℤ) (username channel : String) : Message :=
  NewSystemMessage gid now (leaveContent username channel) channel

/-- `NewWelcomeMessage(channel)` from websocket.go. -/
def NewWelcomeMessage (gid : String) (now : ℤ) (channel : String) : Message :=
  NewSystemMessage gid now (welcomeContent channel) channel

/-- `MessageStore` is the Go `map[string][]Message`.  A read of a missing key
yields the nil slice, so the map is modelled as a total function defaulting to
`[]`; the lazy-initialisation branch of `AddMessage` is a no-op under this
representation. -/
def MessageStore : Type := String → List Message

/-- The store holding no message at all (fresh `make(map[string][]Message)`). -/
def emptyStore : MessageStore := fun _ => []

/-- `MessageStore.AddMessage(message)` from websocket.go: append the message to
the sequence keyed by the message's own Channel field. -/
def AddMessage (ms : MessageStore) (message : Message) : MessageStore :=
  fun c => if c = message.Channel then ms c ++ [message] else ms c

/-- `MessageStore.GetChannelMessageCount(channel)` from websocket.go. -/
def GetChannelMessageCount (ms : MessageStore) (channel : String) : ℕ :=
  (ms channel).length

/-- `MessageStore.GetRecentMessages(channel, limit)` from websocket.go: when
the channel holds no message, return the single welcome message; otherwise
compute `start := if len > limit then len - limit else 0` and return the slice
`channelMessages[start:]`.  `gid`/`now` feed the welcome message constructor. -/
def GetRecentMessages (gid : String) (now : ℤ) (ms : MessageStore)
    (channel : String) (limit : ℕ) : List Message :=
  let channelMessages := ms channel
  if channelMessages.length = 0 then
    [NewWelcomeMessage gid now channel]
  else
    let start := if limit < channelMessages.length then
      channelMessages.length - limit else 0
    channelMessages.drop start

/-- Store-threading rendering of `GetRecentMessages`: the same statements as
the Go method with the store passed through explicitly, so that the frame
property (the method performs no write on the store) can be stated. -/
def GetRecentMessagesSt (gid : String) (now : ℤ) (channel : String)
    (limit : ℕ) (ms : MessageStore) : List Message × MessageStore :=
  let channelMessages := ms channel
  if channelMessages.length = 0 then
    ([NewWelcomeMessage gid now channel], ms)
  else
    let start := if limit < channelMessages.length then
      channelMessages.length - limit else 0
    (channelMessages.drop start, ms)

/-- Decimal rendering of a natural number, the meaning of the `%d` verb used
by `generateMessageID` (websocket.go): most significant digit first, using the
standard digit characters. -/
def decDigits (n : ℕ) : List Char :=
  if _h : n < 10 then
    [Nat.digitChar n]
  else
    decDigits (n / 10) ++ [Nat.digitChar (n % 10)]
decreasing_by
  exact Nat.div_lt_self (by omega) (by omega)

/-- `generateMessageID` (websocket.go): `fmt.Sprintf("%d_%d_%d", timestamp,
counter, randomNum)`.  `timestamp` is `time.Now().UnixNano()` (non-negative on
any real clock), `counter` the value returned by `atomic.AddInt64`, and
`randomNum` the two random bytes (in `[0, 65535]`); all three are rendered in
decimal and joined with underscores. -/
def generateMessageID (timestamp counter randomNum : ℕ) : String :=
  ⟨decDigits timestamp ++ '_' :: decDigits counter ++ '_' :: decDigits randomNum⟩

/-- Value of a digit character produced by `Nat.digitChar` for digits 0–9. -/
def digitVal (c : Char) : ℕ := c.toNat - 48

/-- Decimal reading of a digit list, most significant first. -/
def digitsVal (l : List Char) : ℕ :=
  l.foldl (fun a c => 10 * a + digitVal c) 0

/-- Session state of one connected client, the Go struct `Client` plus the
observable state of its buffered `send` channel.  `sid` models the pointer
identity of the Go `*Client` (the Hub registry is a `map[*Client]bool`, so two
distinct registry keys always have distinct `sid`).  `sendQ`/`sendCap` model
the contents and capacity of the buffered channel `send` (`make(chan Message,
DefaultClientSendBuffer)`); `sendClosed` records that `close(client.send)` has
been executed. -/
structure Session where
  sid : ℕ
  username : String
  channel : String
  sendQ : List Message
  sendCap : ℕ
  sendClosed : Bool
deriving DecidableEq, Repr

/-- State owned by the Hub loop: the registry `h.clients` (a map keyed by
`*Client` pointers, modelled as a list of sessions in iteration order, each
pointer occurring at most once), the shared `messageStore`, and the buffered
`h.broadcast` channel contents (`pending`). -/
structure HubState where
  clients : List Session
  store : MessageStore
  pending : List Message

/-- One client's treatment inside the broadcast loop of `Hub.run`
(websocket.go): when the client's channel equals the message's channel, the
non-blocking `select` either enqueues (buffer not full — `some` of the updated
session) or fails (`none`: the default branch runs, the session is evicted);
a client on another channel is left untouched. -/
def deliverTo (message : Message) (s : Session) : Option Session :=
  if s.channel = message.Channel then
    if s.sendQ.length < s.sendCap then
      some { s with sendQ := s.sendQ ++ [message] }
    else
      none
  else
    some s

/-- The `case message := <-h.broadcast` arm of `Hub.run`: iterate over the
registry; matching clients with buffer room get the message enqueued, matching
clients with a full buffer are removed from the registry and their send queue
closed (the second component collects these evicted sessions).  The list order
stands for the (arbitrary) Go map iteration order. -/
def broadcastStep (message : Message) : List Session → List Session × List Session
  | [] => ([], [])
  | c :: rest =>
    let r := broadcastStep message rest
    match deliverTo message c with
    | some c1 => (c1 :: r.1, r.2)
    | none => (r.1, { c with sendClosed := true } :: r.2)

/-- The `case client := <-h.register` arm of `Hub.run`: add the client to the
registry, build the join notice, append it to the message store, send it to
`h.broadcast`. -/
def registerStep (gid : String) (now : ℤ) (s : Session) (st : HubState) : HubState :=
  let joinMsg := NewJoinMessage gid now s.username s.channel
  { clients := st.clients ++ [s],
    store := AddMessage st.store joinMsg,
    pending := st.pending ++ [joinMsg] }

/-- The `case client := <-h.unregister` arm of `Hub.run`: when the client is a
key of the registry (pointer lookup, modelled through `sid`), remove it, close
its send queue (the closed session is returned in the second component), build
the leave notice, append it to the store and send it to `h.broadcast`;
otherwise do nothing. -/
def unregisterStep (gid : String) (now : ℤ) (s : Session) (st : HubState) :
    HubState × List Session :=
  if st.clients.any (fun t => t.sid = s.sid) then
    let leaveMsg := NewLeaveMessage gid now s.username s.channel
    ({ clients := st.clients.filter (fun t => ¬ t.sid = s.sid),
       store := AddMessage st.store leaveMsg,
       pending := st.pending ++ [leaveMsg] }, [{ s with sendClosed := true }])
  else
    (st, [])

/-- The per-frame body of `Client.readPump` (websocket.go) after a successful
`ReadJSON`: overwrite ID with a fresh generated id, Timestamp with the server
clock, User and Channel with the session's authenticated identity. -/
def readPumpProcess (username channel gid : String) (now : ℤ)
    (msg : Message) : Message :=
  { msg with ID := gid, Timestamp := now, User := username, Channel := channel }

/-- The per-frame effect of `Client.readPump`: process the decoded frame, store
it via `messageStore.AddMessage`, then hand it to `hub.broadcast`. -/
def readPumpStep (username channel gid : String) (now : ℤ) (msg : Message)
    (store : MessageStore) (pending : List Message) :
    MessageStore × List Message :=
  let m := readPumpProcess username channel gid now msg
  (AddMessage store m, pending ++ [m])

/-- Outcome of an API handler, restricted to what `sendMessage` (api.go) can
produce on a JSON-decoded body: a 400 with a structured error object, or a 200
with a status object. -/
inductive ApiResponse where
  | badRequest (error : String)
  | ok (status : String)
deriving DecidableEq, Repr

/-- `sendMessage` (api.go) on a body that decoded into `msg`: reject when
`msg.Channel == ""`; otherwise overwrite ID and Timestamp, default User to
`DefaultAPIUser` when it is empty, store the message, answer
`{"status": "sent"}` and hand the message to `hub.broadcast`. -/
def sendMessage (gid : String) (now : ℤ) (msg : Message) (store : MessageStore)
    (pending : List Message) : ApiResponse × MessageStore × List Message :=
  if msg.Channel = "" then
    (ApiResponse.badRequest ErrorChannelRequired, store, pending)
  else
    let m1 := { msg with ID := gid, Timestamp := now }
    let m2 := if m1.User = "" then { m1 with User := DefaultAPIUser } else m1
    (ApiResponse.ok StatusSent, AddMessage store m2, pending ++ [m2])


/-- A concrete text message on channel "general", used as test input. -/
def mGeneral : Message :=
  { ID := "m1", User := "alice", Content := "hello", Timestamp := 0,
    type := "text", Channel := "general" }

/-- A concrete session on channel "general" whose send queue is full: the
buffered channel holds `DefaultClientSendBuffer = 256` messages. -/
def fullSession : Session :=
  { sid := 1, username := "alice", channel := "general",
    sendQ := List.replicate 256 mGeneral, sendCap := DefaultClientSendBuffer,
    sendClosed := false }

/-- A concrete session on channel "tech" with an empty send queue. -/
def techSession : Session :=
  { sid := 2, username := "bob", channel := "tech", sendQ := [],
    sendCap := DefaultClientSendBuffer, sendClosed := false }

/-- A decoded frame whose id, user, timestamp and channel are client-spoofed. -/
def mSpoof1 : Message :=
  { ID := "x", User := "mallory", Content := "hi", Timestamp := 5,
    type := "text", Channel := "evil" }

/-- A second spoofed frame differing from `mSpoof1` only in the four
server-authoritative fields. -/
def mSpoof2 : Message :=
  { ID := "y", User := "other", Content := "hi", Timestamp := 9,
    type := "text", Channel := "tech" }

/-- A concrete JSON-decoded REST body that carries its own user name. -/
def mApiAlice : Message :=
  { ID := "c", User := "alice", Content := "hello", Timestamp := 7,
    type := "text", Channel := "general" }

/-- The message stored by `sendMessage` for a decoded body `msg`: ID and
Timestamp overwritten, User defaulted to `DefaultAPIUser` exactly when the
body's user field is empty. -/
def apiStored (gid : String) (now : ℤ) (msg : Message) : Message :=
  if msg.User = "" then
    { msg with ID := gid, Timestamp := now, User := DefaultAPIUser }
  else
    { msg with ID := gid, Timestamp := now }

lemma digitsVal_append_singleton (l : List Char) (c : Char) :
    digitsVal (l ++ [c]) = 10 * digitsVal l + digitVal c := by
  simp [digitsVal, List.foldl_append]

lemma digitVal_digitChar {d : ℕ} (hd : d < 10) :
    digitVal (Nat.digitChar d) = d := by
  interval_cases d <;> rfl

lemma decDigits_digit (n : ℕ) : ∀ c ∈ decDigits n, c.isDigit = true := by
  induction n using Nat.strong_induction_on with
  | _ n ih =>
    intro c hc
    rw [decDigits] at hc
    by_cases h : n < 10
    · rw [dif_pos h] at hc
      simp only [List.mem_singleton] at hc
      subst hc
      interval_cases n <;> rfl
    · rw [dif_neg h] at hc
      rcases List.mem_append.mp hc with h1 | h1
      · exact ih (n / 10) (Nat.div_lt_self (by omega) (by omega)) c h1
      · simp only [List.mem_singleton] at h1
        subst h1
        have : n % 10 < 10 := Nat.mod_lt _ (by omega)
        interval_cases h2 : n % 10 <;> rfl

lemma underscore_not_mem_decDigits (n : ℕ) : '_' ∉ decDigits n := by
  intro h
  have := decDigits_digit n '_' h
  simp [Char.isDigit] at this

lemma digitsVal_decDigits (n : ℕ) : digitsVal (decDigits n) = n := by
  induction n using Nat.strong_induction_on with
  | _ n ih =>
    rw [decDigits]
    by_cases h : n < 10
    · rw [dif_pos h]
      show digitsVal [Nat.digitChar n] = n
      simp [digitsVal, digitVal_digitChar h]
    · rw [dif_neg h]
      rw [digitsVal_append_singleton,
        ih (n / 10) (Nat.div_lt_self (by omega) (by omega)),
        digitVal_digitChar (Nat.mod_lt _ (by omega))]
      omega

lemma decDigits_injective : Function.Injective decDigits := by
  intro a b h
  have := digitsVal_decDigits a
  rw [h, digitsVal_decDigits] at this
  omega

lemma underscore_split (a1 r1 : List Char) :
    ∀ (a2 r2 : List Char), '_' ∉ a1 → '_' ∉ a2 →
      a1 ++ '_' :: r1 = a2 ++ '_' :: r2 → a1 = a2 ∧ r1 = r2 := by
  induction a1 with
  | nil =>
    intro a2 r2 _ h2 heq
    cases a2 with
    | nil => simpa using heq
    | cons c t =>
      simp only [List.nil_append, List.cons_append, List.cons.injEq] at heq
      exact absurd (heq.1 ▸ List.mem_cons_self c t) h2
  | cons c t ih =>
    intro a2 r2 h1 h2 heq
    cases a2 with
    | nil =>
      simp only [List.cons_append, List.nil_append, List.cons.injEq] at heq
      exact absurd (heq.1 ▸ List.mem_cons_self c t) h1
    | cons d u =>
      simp only [List.cons_append, List.cons.injEq] at heq
      obtain ⟨rfl, heq2⟩ := heq
      have ht := ih u r2 (fun hm => h1 (List.mem_cons_of_mem _ hm))
        (fun hm => h2 (List.mem_cons_of_mem _ hm)) heq2
      exact ⟨by rw [ht.1], ht.2⟩

/-- Two calls of `generateMessageID` that obtained different counter values
from `atomic.AddInt64` return different id strings, whatever their timestamps
and random bytes were. -/
lemma generateMessageID_counter_injective
    {t1 c1 r1 t2 c2 r2 : ℕ} (h : c1 ≠ c2) :
    generateMessageID t1 c1 r1 ≠ generateMessageID t2 c2 r2 := by
  intro heq
  have hdata : decDigits t1 ++ '_' :: (decDigits c1 ++ '_' :: decDigits r1) =
      decDigits t2 ++ '_' :: (decDigits c2 ++ '_' :: decDigits r2) := by
    have h0 := congrArg String.data heq
    simp only [generateMessageID, List.append_assoc, List.cons_append] at h0
    exact h0
  have h1 := underscore_split (decDigits t1)
    (decDigits c1 ++ '_' :: decDigits r1) (decDigits t2)
    (decDigits c2 ++ '_' :: decDigits r2)
    (underscore_not_mem_decDigits t1) (underscore_not_mem_decDigits t2) hdata
  have h2 := underscore_split (decDigits c1) (decDigits r1) (decDigits c2)
    (decDigits r2)
    (underscore_not_mem_decDigits c1) (underscore_not_mem_decDigits c2) h1.2
  exact h (decDigits_injective h2.1)

lemma broadcastStep_fst_eq_filterMap (m : Message) (cs : List Session) :
    (broadcastStep m cs).1 = cs.filterMap (deliverTo m) := by
  induction cs with
  | nil => rfl
  | cons c rest ih =>
    simp only [broadcastStep, List.filterMap_cons]
    cases h : deliverTo m c <;> simp [h, ih]

lemma deliverTo_sid {m : Message} {s s1 : Session}
    (h : deliverTo m s = some s1) : s1.sid = s.sid := by
  unfold deliverTo at h
  by_cases h1 : s.channel = m.Channel
  · rw [if_pos h1] at h
    by_cases h2 : s.sendQ.length < s.sendCap
    · rw [if_pos h2] at h
      cases h
      rfl
    · rw [if_neg h2] at h
      cases h
  · rw [if_neg h1] at h
    cases h
    rfl

lemma deliverTo_of_ne_channel {m : Message} {s : Session}
    (h : s.channel ≠ m.Channel) : deliverTo m s = some s := by
  unfold deliverTo
  rw [if_neg h]

lemma deliverTo_of_room {m : Message} {s : Session} (h1 : s.channel = m.Channel)
    (h2 : s.sendQ.length < s.sendCap) :
    deliverTo m s = some { s with sendQ := s.sendQ ++ [m] } := by
  unfold deliverTo
  rw [if_pos h1, if_pos h2]

lemma deliverTo_of_full {m : Message} {s : Session} (h1 : s.channel = m.Channel)
    (h2 : s.sendCap ≤ s.sendQ.length) : deliverTo m s = none := by
  unfold deliverTo
  rw [if_pos h1, if_neg (by omega)]

lemma broadcastStep_evicted_mem {m : Message} {cs : List Session} {s : Session}
    (hs : s ∈ cs) (hd : deliverTo m s = none) :
    { s with sendClosed := true } ∈ (broadcastStep m cs).2 := by
  induction cs with
  | nil => cases hs
  | cons c rest ih =>
    rcases List.mem_cons.mp hs with rfl | hmem
    · simp only [broadcastStep, hd]
      exact List.mem_cons_self _ _
    · simp only [broadcastStep]
      cases h : deliverTo m c
      · exact List.mem_cons_of_mem _ (ih hmem)
      · exact ih hmem

set_option maxRecDepth 8192 in
/-- C1 (counterexample): channel equality does not imply that the session
receives the broadcast.  `fullSession` sits on channel "general" — the same
channel as `mGeneral` — yet its full send buffer makes the non-blocking send
fail, so the Hub enqueues nothing, evicts the session and closes its queue:
after the broadcast step the registry is empty. -/
theorem hub_broadcast_iff_counterexample :
    fullSession.channel = mGeneral.Channel ∧
    broadcastStep mGeneral [fullSession] =
      ([], [{ fullSession with sendClosed := true }]) := by
  constructor
  · rfl
  · rfl

/-- C1 (amended): during a broadcast of `m` over any registry (whose entries
carry pairwise distinct identities, as the keys of the Go map do), a
registered session `s` receives `m` — the session with `m` appended to its
send queue is in the post-broadcast registry — if and only if `s` is on `m`'s
channel and `s`'s bounded send queue is not full; moreover a session on a
different channel stays registered untouched, and every surviving session
whose channel differs from `m`'s is one of the original registry entries,
unchanged — no message is ever enqueued to a session of another channel. -/
theorem hub_broadcast_channel_isolation (m : Message) (cs : List Session)
    (s : Session) (hs : s ∈ cs) (hsid : (cs.map Session.sid).Nodup) :
    ({ s with sendQ := s.sendQ ++ [m] } ∈ (broadcastStep m cs).1 ↔
      s.channel = m.Channel ∧ s.sendQ.length < s.sendCap) ∧
    (s.channel ≠ m.Channel → s ∈ (broadcastStep m cs).1) ∧
    (∀ s1 ∈ (broadcastStep m cs).1, s1.channel ≠ m.Channel → s1 ∈ cs) := by
  refine ⟨⟨?_, ?_⟩, ?_, ?_⟩
  · intro hmem
    rw [broadcastStep_fst_eq_filterMap] at hmem
    obtain ⟨t, ht, hdel⟩ := List.mem_filterMap.mp hmem
    have htsid : t.sid = s.sid := (deliverTo_sid hdel).symm
    have hts : t = s := List.inj_on_of_nodup_map hsid ht hs htsid
    subst hts
    by_cases h1 : t.channel = m.Channel
    · by_cases h2 : t.sendQ.length < t.sendCap
      · exact ⟨h1, h2⟩
      · rw [deliverTo_of_full h1 (by omega)] at hdel
        cases hdel
    · rw [deliverTo_of_ne_channel h1] at hdel
      have hq := congrArg Session.sendQ (Option.some.inj hdel)
      simp at hq
  · rintro ⟨h1, h2⟩
    rw [broadcastStep_fst_eq_filterMap]
    exact List.mem_filterMap.mpr ⟨s, hs, deliverTo_of_room h1 h2⟩
  · intro h1
    rw [broadcastStep_fst_eq_filterMap]
    exact List.mem_filterMap.mpr ⟨s, hs, deliverTo_of_ne_channel h1⟩
  · intro s1 hs1 hch
    rw [broadcastStep_fst_eq_filterMap] at hs1
    obtain ⟨t, ht, hdel⟩ := List.mem_filterMap.mp hs1
    unfold deliverTo at hdel
    by_cases h1 : t.channel = m.Channel
    · rw [if_pos h1] at hdel
      by_cases h2 : t.sendQ.length < t.sendCap
      · rw [if_pos h2] at hdel
        cases hdel
        exact absurd h1 hch
      · rw [if_neg h2] at hdel
        cases hdel
    · rw [if_neg h1] at hdel
      cases hdel
      exact ht

/-- Witness for the amended C1 at a concrete registry: `techSession` (channel
"tech", empty queue of capacity 256) is registered together with nobody else;
broadcasting `mGeneral` (channel "general") enqueues to it exactly under the
iff's condition (here false: its channel differs), leaves it registered, and
enqueues nothing to any session of another channel. -/
theorem hub_broadcast_channel_isolation_witness :
    techSession ∈ [techSession] ∧
    ([techSession].map Session.sid).Nodup ∧
    (({ techSession with sendQ := techSession.sendQ ++ [mGeneral] } ∈
          (broadcastStep mGeneral [techSession]).1 ↔
        techSession.channel = mGeneral.Channel ∧
          techSession.sendQ.length < techSession.sendCap) ∧
     (techSession.channel ≠ mGeneral.Channel →
        techSession ∈ (broadcastStep mGeneral [techSession]).1) ∧
     (∀ s1 ∈ (broadcastStep mGeneral [techSession]).1,
        s1.channel ≠ mGeneral.Channel → s1 ∈ [techSession])) :=
  ⟨List.mem_singleton.mpr rfl, by decide,
   hub_broadcast_channel_isolation mGeneral [techSession] techSession
     (List.mem_singleton.mpr rfl) (by decide)⟩

/-- C4: when a broadcast of `m` reaches a registered session on `m`'s channel
whose bounded send queue is full, the Hub evicts it within that same broadcast
step: the session's queue is closed (it appears among the evicted sessions
with `sendClosed = true`) and no session with its identity remains in the
registry.  The step is a total function — it blocks on nothing and returns no
error to any caller. -/
theorem hub_broadcast_full_queue_eviction (m : Message) (cs : List Session)
    (s : Session) (hs : s ∈ cs) (hsid : (cs.map Session.sid).Nodup)
    (hch : s.channel = m.Channel) (hfull : s.sendCap ≤ s.sendQ.length) :
    { s with sendClosed := true } ∈ (broadcastStep m cs).2 ∧
    ∀ s1 ∈ (broadcastStep m cs).1, s1.sid ≠ s.sid := by
  constructor
  · exact broadcastStep_evicted_mem hs (deliverTo_of_full hch hfull)
  · intro s1 hs1 heq
    rw [broadcastStep_fst_eq_filterMap] at hs1
    obtain ⟨t, ht, hdel⟩ := List.mem_filterMap.mp hs1
    have htsid : t.sid = s.sid := (deliverTo_sid hdel) ▸ heq
    have hts : t = s := List.inj_on_of_nodup_map hsid ht hs htsid
    rw [hts, deliverTo_of_full hch hfull] at hdel
    cases hdel

set_option maxRecDepth 8192 in
/-- Witness for C4 at a concrete input: `fullSession` (channel "general",
queue holding 256 messages of capacity 256) is evicted and closed by a
broadcast of `mGeneral`, and the surviving registry holds no session with its
identity. -/
theorem hub_broadcast_full_queue_eviction_witness :
    fullSession ∈ [fullSession] ∧
    fullSession.channel = mGeneral.Channel ∧
    fullSession.sendCap ≤ fullSession.sendQ.length ∧
    ({ fullSession with sendClosed := true } ∈
        (broadcastStep mGeneral [fullSession]).2 ∧
     ∀ s1 ∈ (broadcastStep mGeneral [fullSession]).1, s1.sid ≠ fullSession.sid) :=
  ⟨List.mem_singleton.mpr rfl, rfl, by decide,
   hub_broadcast_full_queue_eviction mGeneral [fullSession] fullSession
     (List.mem_singleton.mpr rfl) (by decide) rfl (by decide)⟩

/-- C2 (counterexample): the claim fails twice on the code.  First, the
synthesized welcome message for an empty channel carries the template text
`"歡迎來到 <channel> 頻道！開始你的第一條消息吧 👋"`, not the English text
`"Welcome to <channel> channel! Start your first message 👋"` the claim
states.  Second, with one stored message and `limit = 0` the result is empty,
refuting "returns a non-empty result for every limit". -/
theorem getRecentMessages_claim_counterexample :
    (GetRecentMessages "id0" 0 emptyStore "general" 50).map Message.Content =
      ["歡迎來到 general 頻道！開始你的第一條消息吧 👋"] ∧
    "歡迎來到 general 頻道！開始你的第一條消息吧 👋" ≠
      "Welcome to general channel! Start your first message 👋" ∧
    GetRecentMessages "id0" 0 (AddMessage emptyStore mGeneral) "general" 0 = [] := by
  refine ⟨rfl, by decide, rfl⟩

/-- C2 (amended): for every channel and every limit ≥ 1,
`GetRecentMessages` returns a non-empty result; when the channel holds no
message it returns exactly the one synthesized system welcome message, whose
content is the template `"歡迎來到 <channel> 頻道！開始你的第一條消息吧 👋"`;
when the channel holds at least one message it returns the last
`min(limit, Count(channel))` stored messages in arrival order (the suffix of
the stored sequence from position `Count - limit`). -/
theorem getRecentMessages_spec_amended (gid : String) (now : ℤ)
    (ms : MessageStore) (channel : String) (limit : ℕ) (hlim : 1 ≤ limit) :
    GetRecentMessages gid now ms channel limit ≠ [] ∧
    (GetChannelMessageCount ms channel = 0 →
      GetRecentMessages gid now ms channel limit =
        [NewWelcomeMessage gid now channel] ∧
      (NewWelcomeMessage gid now channel).type = MessageTypeSystem ∧
      (NewWelcomeMessage gid now channel).Content =
        "歡迎來到 " ++ channel ++ " 頻道！開始你的第一條消息吧 👋") ∧
    (1 ≤ GetChannelMessageCount ms channel →
      GetRecentMessages gid now ms channel limit =
        (ms channel).drop ((ms channel).length - limit) ∧
      (GetRecentMessages gid now ms channel limit).length =
        min limit (ms channel).length) := by
  unfold GetRecentMessages GetChannelMessageCount
  by_cases h : (ms channel).length = 0
  · simp only [h, if_pos rfl]
    refine ⟨by simp, fun _ => ⟨rfl, rfl, rfl⟩, fun hc => absurd h (by omega)⟩
  · simp only [if_neg h]
    have hlen : 1 ≤ (ms channel).length := by omega
    have hstart : (if limit < (ms channel).length then
        (ms channel).length - limit else 0) = (ms channel).length - limit := by
      by_cases hc : limit < (ms channel).length
      · rw [if_pos hc]
      · rw [if_neg hc]
        omega
    rw [hstart]
    have hdroplen : ((ms channel).drop ((ms channel).length - limit)).length =
        min limit (ms channel).length := by
      rw [List.length_drop]
      omega
    refine ⟨?_, fun hc => absurd hc (by omega), fun _ => ⟨rfl, hdroplen⟩⟩
    intro hnil
    rw [hnil] at hdroplen
    simp at hdroplen
    omega

/-- Witness for the amended C2 at a concrete input: the empty store, channel
"general", limit 1. -/
theorem getRecentMessages_spec_amended_witness :
    1 ≤ 1 ∧
    (GetRecentMessages "id0" 0 emptyStore "general" 1 ≠ [] ∧
     (GetChannelMessageCount emptyStore "general" = 0 →
       GetRecentMessages "id0" 0 emptyStore "general" 1 =
         [NewWelcomeMessage "id0" 0 "general"] ∧
       (NewWelcomeMessage "id0" 0 "general").type = MessageTypeSystem ∧
       (NewWelcomeMessage "id0" 0 "general").Content =
         "歡迎來到 " ++ "general" ++ " 頻道！開始你的第一條消息吧 👋") ∧
     (1 ≤ GetChannelMessageCount emptyStore "general" →
       GetRecentMessages "id0" 0 emptyStore "general" 1 =
         (emptyStore "general").drop ((emptyStore "general").length - 1) ∧
       (GetRecentMessages "id0" 0 emptyStore "general" 1).length =
         min 1 (emptyStore "general").length)) :=
  ⟨by decide, getRecentMessages_spec_amended "id0" 0 emptyStore "general" 1 (by decide)⟩

/-- C3: the per-frame processing of the read task overwrites ID with the
freshly generated id, Timestamp with the server clock, and User and Channel
with the session's authenticated identity; two decoded frames that agree on
Content and type (i.e. differ only in the four client-supplied fields) lead to
identical stored and broadcast messages. -/
theorem readPump_server_authoritative_fields (username channel gid : String)
    (now : ℤ) (store : MessageStore) (pending : List Message)
    (m1 m2 : Message) (hC : m1.Content = m2.Content) (hT : m1.type = m2.type) :
    readPumpStep username channel gid now m1 store pending =
      readPumpStep username channel gid now m2 store pending ∧
    (readPumpProcess username channel gid now m1).ID = gid ∧
    (readPumpProcess username channel gid now m1).Timestamp = now ∧
    (readPumpProcess username channel gid now m1).User = username ∧
    (readPumpProcess username channel gid now m1).Channel = channel := by
  have hm : readPumpProcess username channel gid now m1 =
      readPumpProcess username channel gid now m2 := by
    unfold readPumpProcess
    cases m1
    cases m2
    simp_all
  refine ⟨?_, rfl, rfl, rfl, rfl⟩
  unfold readPumpStep
  rw [hm]

/-- Witness for C3: two concrete frames with spoofed id, user, channel and
timestamp but equal content and type are stored identically. -/
theorem readPump_server_authoritative_fields_witness :
    mSpoof1.Content = mSpoof2.Content ∧
    (readPumpStep "alice" "general" "id1" 42 mSpoof1 emptyStore [] =
       readPumpStep "alice" "general" "id1" 42 mSpoof2 emptyStore [] ∧
     (readPumpProcess "alice" "general" "id1" 42 mSpoof1).ID = "id1" ∧
     (readPumpProcess "alice" "general" "id1" 42 mSpoof1).Timestamp = 42 ∧
     (readPumpProcess "alice" "general" "id1" 42 mSpoof1).User = "alice" ∧
     (readPumpProcess "alice" "general" "id1" 42 mSpoof1).Channel = "general") :=
  ⟨rfl, readPump_server_authoritative_fields "alice" "general" "id1" 42
    emptyStore [] mSpoof1 mSpoof2 rfl rfl⟩

/-- C5: `AddMessage` appends the message to the sequence keyed by the
message's own Channel field only, hence it preserves the store invariant that
every stored sequence contains only messages of its own channel. -/
theorem addMessage_preserves_channel_invariant (ms : MessageStore)
    (msg : Message) (h : ∀ c : String, ∀ m ∈ ms c, m.Channel = c) :
    ∀ c : String, ∀ m ∈ AddMessage ms msg c, m.Channel = c := by
  intro c m hm
  unfold AddMessage at hm
  by_cases hc : c = msg.Channel
  · rw [if_pos hc] at hm
    rcases List.mem_append.mp hm with h1 | h1
    · exact h c m h1
    · rw [List.mem_singleton] at h1
      rw [h1, hc]
  · rw [if_neg hc] at hm
    exact h c m hm

/-- Witness for C5: adding `mGeneral` to the empty store (whose invariant
holds vacuously) yields a store satisfying the invariant. -/
theorem addMessage_preserves_channel_invariant_witness :
    (∀ c : String, ∀ m ∈ emptyStore c, m.Channel = c) ∧
    (∀ c : String, ∀ m ∈ AddMessage emptyStore mGeneral c, m.Channel = c) :=
  ⟨fun _ m hm => absurd hm (List.not_mem_nil m),
   addMessage_preserves_channel_invariant emptyStore mGeneral
     (fun _ m hm => absurd hm (List.not_mem_nil m))⟩

/-- C6 (counterexample): the join notice synthesized by the register arm
carries the template text `"<user> 加入了 <channel> 頻道"`, not
`"<user> joined <channel>"` as the claim states. -/
theorem register_join_notice_counterexample :
    (NewJoinMessage "id0" 0 "alice" "general").Content =
      "alice 加入了 general 頻道" ∧
    "alice 加入了 general 頻道" ≠ "alice joined general" := by
  exact ⟨rfl, by decide⟩

/-- C6 (amended): processing Register(session) adds the session to the
registry and synthesizes exactly one join notice with content
`"<user> 加入了 <channel> 頻道"`, kind system and channel equal to the
session's channel; the notice is appended to the message store and then sent
to the broadcast queue; the step is a total function, so registration never
fails at this stage. -/
theorem register_join_notice_amended (gid : String) (now : ℤ) (s : Session)
    (st : HubState) :
    registerStep gid now s st =
      { clients := st.clients ++ [s],
        store := AddMessage st.store (NewJoinMessage gid now s.username s.channel),
        pending := st.pending ++ [NewJoinMessage gid now s.username s.channel] } ∧
    (NewJoinMessage gid now s.username s.channel).type = MessageTypeSystem ∧
    (NewJoinMessage gid now s.username s.channel).Channel = s.channel ∧
    (NewJoinMessage gid now s.username s.channel).Content =
      s.username ++ " 加入了 " ++ s.channel ++ " 頻道" :=
  ⟨rfl, rfl, rfl, rfl⟩

lemma unregister_noop (g : String) (n : ℤ) (s : Session) (st : HubState)
    (h : st.clients.any (fun t => t.sid = s.sid) = false) :
    unregisterStep g n s st = (st, []) := by
  unfold unregisterStep
  simp [h]

lemma unregister_clears_sid (g : String) (n : ℤ) (s : Session) (st : HubState) :
    ((unregisterStep g n s st).1.clients.any (fun t => t.sid = s.sid)) = false := by
  unfold unregisterStep
  by_cases h : st.clients.any (fun t => t.sid = s.sid) = true
  · simp only [h, if_true]
    simp only [List.any_eq_false]
    intro t ht
    have := List.of_mem_filter ht
    simpa using this
  · have h0 : st.clients.any (fun t => t.sid = s.sid) = false := by
      simpa using h
    simp [h0]

/-- C7: distinct calls of the message-id generator return pairwise distinct id
strings.  Each call performs `atomic.AddInt64(&messageIDCounter, 1)`; in the
linearization order of these atomic increments the i-th call (0-based)
receives the counter value `i + 1`, whatever interleaving produced that order,
while its timestamp and random bytes are arbitrary.  For any N ≥ 1000 calls,
any two distinct calls yield different ids. -/
theorem generateMessageID_pairwise_distinct (N : ℕ) (_hN : 1000 ≤ N)
    (ts rnd : ℕ → ℕ) (i j : ℕ) (_hi : i < N) (_hj : j < N) (hij : i ≠ j) :
    generateMessageID (ts i) (i + 1) (rnd i) ≠
      generateMessageID (ts j) (j + 1) (rnd j) :=
  generateMessageID_counter_injective (by omega)

/-- Witness for C7: among 1000 calls with all timestamps and random numbers
pinned to 0, the first two calls get different ids. -/
theorem generateMessageID_pairwise_distinct_witness :
    1000 ≤ 1000 ∧
    generateMessageID 0 (0 + 1) 0 ≠ generateMessageID 0 (1 + 1) 0 :=
  ⟨by decide, generateMessageID_pairwise_distinct 1000 (by decide)
    (fun _ => 0) (fun _ => 0) 0 1 (by decide) (by decide) (by decide)⟩

/-- C8 (counterexample): the claim says the server assigns the default user,
but a decoded body that carries a non-empty user keeps it: posting
`mApiAlice` (user "alice") stores user "alice", not `DefaultAPIUser`
("Web User"), while the response is still `{"status": "sent"}`. -/
theorem sendMessage_default_user_counterexample :
    ((sendMessage "id0" 0 mApiAlice emptyStore []).2.1 "general").map
      Message.User = ["alice"] ∧
    "alice" ≠ DefaultAPIUser ∧
    (sendMessage "id0" 0 mApiAlice emptyStore []).1 = ApiResponse.ok StatusSent := by
  exact ⟨rfl, by decide, rfl⟩

/-- C8 (amended): for a request body that decoded into `msg`: when the channel
field is empty the request is rejected with the structured error
`channel is required` and neither the store nor the broadcast queue changes;
otherwise the server overwrites id and timestamp, sets the user to the default
`DefaultAPIUser` only when the body's user field is empty, stores the
resulting message into its channel's sequence, responds `{"status": "sent"}`
and hands the message to the broadcast queue. -/
theorem sendMessage_spec_amended (gid : String) (now : ℤ) (msg : Message)
    (store : MessageStore) (pending : List Message) :
    (msg.Channel = "" →
      sendMessage gid now msg store pending =
        (ApiResponse.badRequest ErrorChannelRequired, store, pending)) ∧
    (msg.Channel ≠ "" →
      sendMessage gid now msg store pending =
        (ApiResponse.ok StatusSent, AddMessage store (apiStored gid now msg),
         pending ++ [apiStored gid now msg]) ∧
      (apiStored gid now msg).ID = gid ∧
      (apiStored gid now msg).Timestamp = now ∧
      (apiStored gid now msg).Channel = msg.Channel ∧
      (apiStored gid now msg).User =
        (if msg.User = "" then DefaultAPIUser else msg.User) ∧
      (apiStored gid now msg).Content = msg.Content) := by
  constructor
  · intro h
    unfold sendMessage
    rw [if_pos h]
  · intro h
    refine ⟨?_, ?_, ?_, ?_, ?_, ?_⟩ <;>
      by_cases hu : msg.User = "" <;>
        simp [sendMessage, apiStored, h, hu]

/-- Witness for the amended C8 at the concrete body `mApiAlice`. -/
theorem sendMessage_spec_amended_witness :
    (mApiAlice.Channel = "" →
      sendMessage "id0" 0 mApiAlice emptyStore [] =
        (ApiResponse.badRequest ErrorChannelRequired, emptyStore, [])) ∧
    (mApiAlice.Channel ≠ "" →
      sendMessage "id0" 0 mApiAlice emptyStore [] =
        (ApiResponse.ok StatusSent,
         AddMessage emptyStore (apiStored "id0" 0 mApiAlice),
         [] ++ [apiStored "id0" 0 mApiAlice]) ∧
      (apiStored "id0" 0 mApiAlice).ID = "id0" ∧
      (apiStored "id0" 0 mApiAlice).Timestamp = 0 ∧
      (apiStored "id0" 0 mApiAlice).Channel = mApiAlice.Channel ∧
      (apiStored "id0" 0 mApiAlice).User =
        (if mApiAlice.User = "" then DefaultAPIUser else mApiAlice.User) ∧
      (apiStored "id0" 0 mApiAlice).Content = mApiAlice.Content) :=
  sendMessage_spec_amended "id0" 0 mApiAlice emptyStore []

/-- C9: Unregister is idempotent on the Hub registry.  Processing
Unregister(session) when no registry entry has the session's identity is a
complete no-op: the registry, the store and the broadcast queue are unchanged
and no queue is closed.  Moreover a second Unregister of the same session,
whatever ids and clock readings the two runs see, is always such a no-op, so
two Unregisters have the same effect as one. -/
theorem unregister_idempotent (g1 g2 : String) (n1 n2 : ℤ) (s : Session)
    (st : HubState) :
    (st.clients.any (fun t => t.sid = s.sid) = false →
      unregisterStep g1 n1 s st = (st, [])) ∧
    unregisterStep g2 n2 s (unregisterStep g1 n1 s st).1 =
      ((unregisterStep g1 n1 s st).1, []) := by
  constructor
  · intro h
    exact unregister_noop g1 n1 s st h
  · exact unregister_noop g2 n2 s _ (unregister_clears_sid g1 n1 s st)

/-- Witness for C9: unregistering `techSession` from a Hub whose registry only
holds `fullSession` (a different identity) is a no-op, and a repeated
unregister equals a single one. -/
theorem unregister_idempotent_witness :
    (([fullSession].any (fun t => t.sid = techSession.sid) = false →
       unregisterStep "g1" 1 techSession
         { clients := [fullSession], store := emptyStore, pending := [] } =
         ({ clients := [fullSession], store := emptyStore, pending := [] }, [])) ∧
     unregisterStep "g2" 2 techSession
       (unregisterStep "g1" 1 techSession
         { clients := [fullSession], store := emptyStore, pending := [] }).1 =
       ((unregisterStep "g1" 1 techSession
         { clients := [fullSession], store := emptyStore, pending := [] }).1, [])) :=
  unregister_idempotent "g1" "g2" 1 2 techSession
    { clients := [fullSession], store := emptyStore, pending := [] }

/-- C10: retrieving recent messages never mutates the store: the store-passing
rendering of `GetRecentMessages` returns the input store itself, its result is
the pure function's result, and every channel's message count — in particular
the empty channel's 0 — is the same before and after; the synthesized welcome
message is returned, never appended. -/
theorem getRecentMessages_no_mutation (gid : String) (now : ℤ)
    (channel : String) (limit : ℕ) (ms : MessageStore) :
    (GetRecentMessagesSt gid now channel limit ms).2 = ms ∧
    (GetRecentMessagesSt gid now channel limit ms).1 =
      GetRecentMessages gid now ms channel limit ∧
    ∀ c : String,
      GetChannelMessageCount (GetRecentMessagesSt gid now channel limit ms).2 c =
        GetChannelMessageCount ms c := by
  by_cases h : (ms channel).length = 0 <;>
    refine ⟨?_, ?_, fun c => ?_⟩ <;>
      simp [GetRecentMessagesSt, GetRecentMessages, GetChannelMessageCount, h]

end ChatServer
